import Mathlib

/-!
Verification of the `ish` shell (src/main.rs): pipeline execution and
job control.  The Rust source is shallowly embedded below.  Strings are
modelled as `List Char` (`Str`), and the Rust standard-library string
operations used by the source (`trim`, `trim_end`, `trim_end_matches`,
`ends_with`, `split`, `split_whitespace`) are implemented with Rust's
semantics over `Str`.  OS effects (spawn results, file-open results,
signal and terminal calls, waits) are supplied by an `Oracle` of outcomes
and recorded in a `Trace` of events, so that one line of input becomes a
pure function from shell state and oracle to an outcome plus a trace.
-/

namespace Ish

/-- Rust strings, modelled as lists of characters. -/
abbrev Str := List Char

/-- Split `s` on every non-overlapping occurrence of `sep`, left to right,
as Rust's `str::split` does; `acc` holds the current fragment reversed.
The fuel argument is bounded by the length of `s`, which suffices for a
non-empty separator. -/
def splitOnFuel (sep : Str) : Nat → Str → Str → List Str
  | 0, s, acc => [acc.reverse ++ s]
  | fuel+1, s, acc =>
    match s with
    | [] => [acc.reverse]
    | c :: rest =>
      if sep.isPrefixOf s then
        acc.reverse :: splitOnFuel sep fuel (s.drop sep.length) []
      else
        splitOnFuel sep fuel rest (c :: acc)

/-- Rust `str::split(sep)`: all fragments between occurrences of `sep`,
including empty ones; a string not containing `sep` yields one fragment. -/
def splitOnL (sep s : Str) : List Str :=
  splitOnFuel sep s.length s []

/-- Rust `str::split_whitespace`: fragments between runs of whitespace,
with no empty fragments; `acc` holds the current fragment reversed. -/
def splitWSGo : Str → Str → List Str
  | acc, [] => if acc.isEmpty then [] else [acc.reverse]
  | acc, c :: rest =>
    if c.isWhitespace then
      if acc.isEmpty then splitWSGo [] rest else acc.reverse :: splitWSGo [] rest
    else splitWSGo (c :: acc) rest

/-- Rust `str::split_whitespace` (entry point). -/
def splitWhitespaceL (s : Str) : List Str := splitWSGo [] s

/-- Rust `str::trim_end`: drop trailing whitespace. -/
def trimEndL (s : Str) : Str :=
  (s.reverse.dropWhile Char.isWhitespace).reverse

/-- Rust `str::trim`: drop leading and trailing whitespace. -/
def trimL (s : Str) : Str :=
  trimEndL (s.dropWhile Char.isWhitespace)

/-- Rust `str::trim_end_matches('&')`: drop every trailing `'&'`. -/
def trimEndAmpL (s : Str) : Str :=
  (s.reverse.dropWhile (fun c => c == '&')).reverse

/-- Rust `str::ends_with('&')`. -/
def endsWithAmp (s : Str) : Bool :=
  s.getLast? == some '&'

/-- The pipeline stage separator, `" | "` (main.rs line 100). -/
def pipeSep : Str := " | ".data

/-- The input-redirection marker `"<"` (main.rs line 215). -/
def ltMark : Str := "<".data

/-- The output-redirection marker `">"` (main.rs line 225). -/
def gtMark : Str := ">".data

/-- The error-redirection marker `"2>"` (main.rs lines 225 and 237). -/
def errMark : Str := "2>".data

/-- Rust `command.contains("2>")`, expressed through the same split used
to extract the redirect target: the split has a second fragment exactly
when the marker occurs. -/
def contains2Gt (s : Str) : Bool :=
  match splitOnL errMark s with
  | _ :: _ :: _ => true
  | _ => false

/-- A spawned child process handle (`std::process::Child`): its pid and
whether its stdout was captured by the shell (`Stdio::piped()`), in which
case `child.stdout` is `Some`; redirection to a file or inheritance
leaves `child.stdout` as `None`. -/
structure Child where
  pid : Nat
  stdoutCaptured : Bool
deriving DecidableEq, Repr

/-- Where a stage's stdin comes from (main.rs lines 215-224). -/
inductive StdinSrc
  | inherit
  | fromFile (path : Str)
  | fromPipe (pid : Nat)
deriving DecidableEq, Repr

/-- Where a stage's stdout goes (main.rs lines 225-236). -/
inductive StdoutDst
  | inherit
  | toFile (path : Str)
  | piped
deriving DecidableEq, Repr

/-- Whether this stdout destination is a shell-captured pipe. -/
def StdoutDst.isPiped : StdoutDst → Bool
  | .piped => true
  | _ => false

/-- Where a stage's stderr goes (main.rs lines 237-244). -/
inductive StderrDst
  | inherit
  | toFile (path : Str)
deriving DecidableEq, Repr

/-- A successful spawn: pid, argument list and stream wiring. -/
structure SpawnRec where
  pid : Nat
  args : List Str
  stdin : StdinSrc
  stdout : StdoutDst
  stderr : StderrDst
deriving DecidableEq, Repr

/-- Messages the shell writes to its error stream (`eprintln!`). -/
inductive ErrMsg
  | spawnFailed (cmd : Str)
  | cdNoArg
  | cdFailed (path : Str)
  | setsidFailed
  | setpgidFailed
  | contFailed
  | probeFailed (pid : Nat)
deriving DecidableEq, Repr

/-- Messages the shell writes to its output stream (`println!`). -/
inductive OutMsg
  | jobLine (index pid : Nat)
  | bgExited (pid : Nat)
deriving DecidableEq, Repr

/-- Events of one line of shell execution.  `setpgids` records
`setpgid(0, getpid())` calls made by children in `pre_exec`; `sigconts`
records `kill(pid, SIGCONT)` calls; `tcsets` records `tcsetpgrp`
arguments in order; `waitpids` records blocking
`waitpid(pid, WUNTRACED)` calls; `stopNotes` records those blocking
waits whose reported status was a stop notification (the source ignores
the status, so these events never influence state). -/
structure Trace where
  errs : List ErrMsg := []
  outs : List OutMsg := []
  setpgids : List Nat := []
  sigconts : List Nat := []
  tcsets : List Nat := []
  spawned : List SpawnRec := []
  waitpids : List Nat := []
  stopNotes : List Nat := []
  setsids : Nat := 0
  termiosRestores : Nat := 0
deriving DecidableEq, Repr

/-- Concatenation of traces, in event order. -/
def Trace.app (a b : Trace) : Trace :=
  ⟨a.errs ++ b.errs, a.outs ++ b.outs, a.setpgids ++ b.setpgids,
   a.sigconts ++ b.sigconts, a.tcsets ++ b.tcsets, a.spawned ++ b.spawned,
   a.waitpids ++ b.waitpids, a.stopNotes ++ b.stopNotes,
   a.setsids + b.setsids, a.termiosRestores + b.termiosRestores⟩

@[simp] theorem Trace.app_empty (a : Trace) : a.app {} = a := by
  cases a; simp [Trace.app]

@[simp] theorem Trace.empty_app (a : Trace) : Trace.app {} a = a := by
  cases a; simp [Trace.app]

/-- Outcomes of the OS calls one line of execution may make.  The source
reads results of `spawn`, `File::open`, `File::create`, `kill(pid, 0)`,
`set_current_dir`, `setsid`, `setpgid`, the checked `kill(pid, SIGCONT)`
in `bg`, `tcgetpgrp` (before and after the foreground wait), and the
status reported by the blocking `waitpid`; each is supplied here as pure
data.  `spawnResult` is indexed by the number of spawn attempts already
made on this line and yields the child's pid, or `none` for an
`io::Error` (such as an executable that is not found). -/
structure Oracle where
  spawnResult : Nat → Option Nat
  openOk : Str → Bool
  createOk : Str → Bool
  alive : Nat → Bool
  cdOk : Str → Bool
  setsidOk : Bool
  setpgidOk : Bool
  contOk : Nat → Bool
  fgPgrp : Nat
  fgPgrpAfter : Nat
  waitStopped : Nat → Bool

/-- The mutable state of the per-line command loop (main.rs lines 61-102):
the currently stopped job, the shared background list, the `wait` flag,
`previous_command`, and `first_launched`.  Note that `first_launched` is
captured *by value* in the `move` closure passed to `pre_exec`
(a `bool` is `Copy`), so the assignment `first_launched = false` inside
the closure mutates only the closure's copy inside the forked child:
the parent's flag stays `true` for every stage of the line. -/
structure LoopSt where
  currentStopped : Option Child
  background : List Child
  wait : Bool
  prev : Option Child
  firstLaunched : Bool
deriving Repr

/-- The shell state that persists across input lines. -/
structure ShellSt where
  currentStopped : Option Child
  background : List Child
deriving DecidableEq, Repr

/-- Result of processing one pipeline stage: continue the stage loop,
break out of it, return from `main`, or die on a `panic`
(an `unwrap` of an `Err` or `None`). -/
inductive StepRes
  | cont (st : LoopSt) (idx : Nat)
  | brk (st : LoopSt)
  | exitShell
  | panicked
deriving Repr

/-- The default (external command) arm of the stage dispatch, main.rs
lines 214-282.  The redirect markers are searched for in the *command
token* only; each found marker splits the token, the left fragment
becoming the new command name and the trimmed second fragment the target
path, exactly as `command.split(m)` with `c[0]` and `c[1]`.  A failed
`File::open`/`File::create`, or taking `output.stdout.unwrap()` from a
previous stage whose stdout was not captured, is an `unwrap` on a
failure value and panics.  `setpgid(0, getpid())` runs in the child iff
the parent's `first_launched` flag is set and `wait` is false. -/
def stepExternal (o : Oracle) (idx : Nat) (st : LoopSt) (command : Str)
    (args : List Str) (hasNext : Bool) : StepRes × Trace :=
  let stdinCalc : Str × Option StdinSrc :=
    match splitOnL ltMark command with
    | c0 :: c1 :: _ =>
        let file := trimL c1
        (c0, if o.openOk file then some (.fromFile file) else none)
    | _ =>
        (command,
          match st.prev with
          | none => some .inherit
          | some out => if out.stdoutCaptured then some (.fromPipe out.pid) else none)
  match stdinCalc with
  | (cmd1, stdinRes) =>
    let stdoutCalc : Str × Option StdoutDst :=
      match splitOnL gtMark cmd1 with
      | c0 :: c1 :: _ =>
          if contains2Gt cmd1 then
            (cmd1, some (if hasNext then .piped else .inherit))
          else
            let file := trimL c1
            (c0, if o.createOk file then some (.toFile file) else none)
      | _ => (cmd1, some (if hasNext then .piped else .inherit))
    match stdoutCalc with
    | (cmd2, stdoutRes) =>
      let stderrCalc : Str × Option StderrDst :=
        match splitOnL errMark cmd2 with
        | c0 :: c1 :: _ =>
            let file := trimL c1
            (c0, if o.createOk file then some (.toFile file) else none)
        | _ => (cmd2, some .inherit)
      match stderrCalc with
      | (cmd3, stderrRes) =>
        match stdinRes with
        | none => (.panicked, {})
        | some si =>
          match stdoutRes with
          | none => (.panicked, {})
          | some so =>
            match stderrRes with
            | none => (.panicked, {})
            | some se =>
              match o.spawnResult idx with
              | none =>
                  (.cont { st with prev := none } (idx+1),
                   { errs := [.spawnFailed cmd3] })
              | some pid =>
                  let pg : List Nat :=
                    if st.firstLaunched && !st.wait then [pid] else []
                  let child : Child := ⟨pid, so.isPiped⟩
                  if st.wait then
                    (.cont { st with prev := some child } (idx+1),
                     { setpgids := pg, spawned := [⟨pid, args, si, so, se⟩] })
                  else
                    (.cont { st with
                              prev := none
                              background := st.background ++ [child] } (idx+1),
                     { setpgids := pg, spawned := [⟨pid, args, si, so, se⟩] })

/-- One iteration of the stage loop (main.rs lines 122-283): split the
stage text on whitespace into a command token and arguments, then
dispatch on the command token.  Notes on the builtin arms: `fg` with a
stopped job (lines 134-145) continues it and breaks with `wait = true`
but performs no `tcsetpgrp` (that call is commented out in the source);
`fg` with no stopped job pops the most recently pushed background child
(lines 147-157), transfers the terminal to it and continues it; `bg`
(lines 162-189) returns from `main` when `setsid`, `setpgid` or the
checked `kill(pid, SIGCONT)` fails, and otherwise pushes the stopped
child onto the background list; `jobs` (lines 192-200) prints every
background entry as `[index] pid` and then retains those for which
`kill(pid, 0)` succeeds; `cd` with no argument reports and `continue`s
without touching `previous_command`, and otherwise clears it. -/
def stepStage (o : Oracle) (idx : Nat) (st : LoopSt) (stageText : Str)
    (hasNext : Bool) : StepRes × Trace :=
  let parts := splitWhitespaceL (trimL stageText)
  let command := parts.headD []
  let args := parts.tail
  if command = [] then (.cont st idx, {})
  else if command = "exit".data then (.exitShell, {})
  else if command = "fg".data then
    match st.currentStopped with
    | some child =>
        (.brk { st with currentStopped := none, prev := some child, wait := true },
         { sigconts := [child.pid] })
    | none =>
        match st.background.getLast? with
        | some child =>
            (.brk { st with
                     background := st.background.dropLast
                     currentStopped := none
                     prev := some child
                     wait := true },
             { sigconts := [child.pid], tcsets := [child.pid] })
        | none => (.cont st idx, {})
  else if command = "bg".data then
    match st.currentStopped with
    | some child =>
        if !o.setsidOk then (.exitShell, { errs := [.setsidFailed], setsids := 1 })
        else if !o.setpgidOk then
          (.exitShell, { errs := [.setpgidFailed], setsids := 1 })
        else if !(o.contOk child.pid) then
          (.exitShell, { errs := [.contFailed], setsids := 1 })
        else
          (.cont { st with
                    currentStopped := none
                    wait := false
                    background := st.background ++ [child] } idx,
           { sigconts := [child.pid], setsids := 1 })
    | none => (.cont st idx, {})
  else if command = "jobs".data then
    (.cont { st with background := st.background.filter (fun t => o.alive t.pid) }
       idx,
     { outs := st.background.enum.map (fun ic => .jobLine ic.1 ic.2.pid) })
  else if command = "cd".data then
    if args.isEmpty then (.cont st idx, { errs := [.cdNoArg] })
    else
      (.cont { st with prev := none } idx,
       if o.cdOk (args.headD []) then {} else { errs := [.cdFailed (args.headD [])] })
  else stepExternal o idx st command args hasNext

/-- Result of the whole stage loop. -/
inductive StagesRes
  | norm (st : LoopSt)
  | exited
  | panicked
deriving Repr

/-- The `while let Some(command) = commands.next()` loop (main.rs line
122), with `commands.peek().is_some()` supplied as `hasNext`. -/
def runStages (o : Oracle) : List Str → Nat → LoopSt → StagesRes × Trace
  | [], _, st => (.norm st, {})
  | stage :: rest, idx, st =>
    match stepStage o idx st stage (!rest.isEmpty) with
    | (.cont st1 idx1, tr) =>
        match runStages o rest idx1 st1 with
        | (res, tr2) => (res, tr.app tr2)
    | (.brk st1, tr) => (.norm st1, tr)
    | (.exitShell, tr) => (.exited, tr)
    | (.panicked, tr) => (.panicked, tr)

/-- Outcome of one input line: back to the prompt with a new shell
state, process exit (the `return`s in `main`), or a panic. -/
inductive Outcome
  | ok (sh : ShellSt)
  | exited
  | panicked
deriving Repr

/-- Processing of one line of input (main.rs lines 90-317): compute the
background flag from the trailing `&` of the trimmed line, strip
trailing whitespace and every trailing `&`, split into stages on
`" | "`, run the stage loop, and finally — when `previous_command` is
set and `wait` still holds — run the foreground wait epilogue (lines
285-316): `setsid`, a `tcsetpgrp` to the group `tcgetpgrp` just
returned, a blocking `waitpid(final pid, WUNTRACED)` whose status is
never inspected, a `tcsetattr` restore, and a second read-back
`tcsetpgrp`.  The `Child` being waited on is dropped afterwards: no arm
of the epilogue stores it, so `current_stopped` is never assigned. -/
def processLine (o : Oracle) (sh : ShellSt) (raw : Str) : Outcome × Trace :=
  let wait0 := !(endsWithAmp (trimL raw))
  let input := trimEndAmpL (trimEndL raw)
  let stages := splitOnL pipeSep (trimL input)
  let st0 : LoopSt := ⟨sh.currentStopped, sh.background, wait0, none, true⟩
  match runStages o stages 0 st0 with
  | (.exited, tr) => (.exited, tr)
  | (.panicked, tr) => (.panicked, tr)
  | (.norm st, tr) =>
    match st.prev with
    | some c =>
      if st.wait then
        (.ok ⟨st.currentStopped, st.background⟩,
         tr.app
           { setsids := 1, tcsets := [o.fgPgrp, o.fgPgrpAfter],
             waitpids := [c.pid],
             stopNotes := if o.waitStopped c.pid then [c.pid] else [],
             termiosRestores := 1 })
      else (.ok ⟨st.currentStopped, st.background⟩, tr)
    | none => (.ok ⟨st.currentStopped, st.background⟩, tr)

/-- Result of the monitor's non-blocking probe
`waitpid(pid, null, WNOHANG)` (main.rs line 36): `-1`, `0`, or a pid. -/
inductive ProbeRes
  | probeErr
  | stillRunning
  | exitedZombie
deriving DecidableEq, Repr

/-- The monitor's sweep interval in milliseconds
(`Duration::from_millis(100)`, main.rs line 29). -/
def monitorIntervalMs : Nat := 100

/-- One sweep of `monitor_background_tasks` (main.rs lines 32-50): under
the lock, `retain` over the background list with a non-blocking
`waitpid(pid, WNOHANG)` probe per entry; `-1` logs an error and keeps
the entry, `0` keeps it silently, and a positive result (a collected
zombie) prints the exit report and drops the entry. -/
def monitorSweep (probe : Nat → ProbeRes) : List Child → List Child × Trace
  | [] => ([], {})
  | t :: rest =>
    let r := monitorSweep probe rest
    match probe t.pid with
    | .probeErr => (t :: r.1, Trace.app { errs := [.probeFailed t.pid] } r.2)
    | .stillRunning => (t :: r.1, r.2)
    | .exitedZombie => (r.1, Trace.app { outs := [.bgExited t.pid] } r.2)

/-- An oracle in which every OS call other than `spawn` succeeds, every
probed process is alive, the terminal's foreground group reads back as
`42` both times, and no wait reports a stop; spawn outcomes are the
parameter. -/
def oracleAllOk (spawn : Nat → Option Nat) : Oracle :=
  { spawnResult := spawn, openOk := fun _ => true, createOk := fun _ => true,
    alive := fun _ => true, cdOk := fun _ => true, setsidOk := true,
    setpgidOk := true, contOk := fun _ => true, fgPgrp := 42, fgPgrpAfter := 42,
    waitStopped := fun _ => false }

/-- A command word that reaches the external-command arm unchanged: it is
none of the builtin tokens, survives trimming and whitespace splitting as
itself, and contains none of the redirect markers (each marker split
returns the word whole). -/
def plainWord (c : Str) : Bool :=
  !(c == []) && !(c == "exit".data) && !(c == "fg".data) && !(c == "bg".data) &&
  !(c == "jobs".data) && !(c == "cd".data) &&
  trimL c == c && splitWhitespaceL c == [c] &&
  splitOnL ltMark c == [c] && splitOnL gtMark c == [c] && splitOnL errMark c == [c]

/-- A stage whose text is a plain word is dispatched to the external arm
with itself as the command and no arguments. -/
theorem stepStage_plainWord (o : Oracle) (idx : Nat) (st : LoopSt) (c : Str)
    (hasNext : Bool) (hc : plainWord c = true) :
    stepStage o idx st c hasNext = stepExternal o idx st c [] hasNext := by
  simp only [plainWord, Bool.and_eq_true, beq_iff_eq, Bool.not_eq_true',
    beq_eq_false_iff_ne, ne_eq] at hc
  obtain ⟨⟨⟨⟨⟨⟨⟨⟨⟨⟨h0, h1⟩, h2⟩, h3⟩, h4⟩, h5⟩, htrim⟩, hws⟩, hlt⟩, hgt⟩, herr⟩ := hc
  simp only [stepStage, htrim, hws, List.headD, List.tail,
    if_neg h0, if_neg h1, if_neg h2, if_neg h3, if_neg h4, if_neg h5]

/-- A plain word spawned from the external arm with no previous pipe:
stdin inherited, stdout piped or inherited by position. -/
theorem stepExternal_plainWord (o : Oracle) (idx : Nat) (st : LoopSt) (c : Str)
    (hasNext : Bool) (hc : plainWord c = true) (hprev : st.prev = none) :
    stepExternal o idx st c [] hasNext =
      match o.spawnResult idx with
      | none => (.cont { st with prev := none } (idx+1), { errs := [.spawnFailed c] })
      | some pid =>
          let so : StdoutDst := if hasNext then .piped else .inherit
          let pg : List Nat := if st.firstLaunched && !st.wait then [pid] else []
          if st.wait then
            (.cont { st with prev := some ⟨pid, so.isPiped⟩ } (idx+1),
             { setpgids := pg, spawned := [⟨pid, [], .inherit, so, .inherit⟩] })
          else
            (.cont { st with
                      prev := none
                      background := st.background ++ [⟨pid, so.isPiped⟩] } (idx+1),
             { setpgids := pg, spawned := [⟨pid, [], .inherit, so, .inherit⟩] }) := by
  simp only [plainWord, Bool.and_eq_true, beq_iff_eq] at hc
  obtain ⟨⟨⟨⟨⟨⟨⟨⟨⟨⟨h0, h1⟩, h2⟩, h3⟩, h4⟩, h5⟩, htrim⟩, hws⟩, hlt⟩, hgt⟩, herr⟩ := hc
  simp only [stepExternal, hlt, hgt, herr, hprev, contains2Gt]

/-- A plain word spawned from the external arm where the previous stage's
stdout was captured by a pipe: stdin is that pipe. -/
theorem stepExternal_plainWord_pipe (o : Oracle) (idx : Nat) (st : LoopSt) (c : Str)
    (hasNext : Bool) (hc : plainWord c = true) (u : Child)
    (hprev : st.prev = some u) (hcap : u.stdoutCaptured = true) :
    stepExternal o idx st c [] hasNext =
      match o.spawnResult idx with
      | none => (.cont { st with prev := none } (idx+1), { errs := [.spawnFailed c] })
      | some pid =>
          let so : StdoutDst := if hasNext then .piped else .inherit
          let pg : List Nat := if st.firstLaunched && !st.wait then [pid] else []
          if st.wait then
            (.cont { st with prev := some ⟨pid, so.isPiped⟩ } (idx+1),
             { setpgids := pg, spawned := [⟨pid, [], .fromPipe u.pid, so, .inherit⟩] })
          else
            (.cont { st with
                      prev := none
                      background := st.background ++ [⟨pid, so.isPiped⟩] } (idx+1),
             { setpgids := pg, spawned := [⟨pid, [], .fromPipe u.pid, so, .inherit⟩] }) := by
  simp only [plainWord, Bool.and_eq_true, beq_iff_eq] at hc
  obtain ⟨⟨⟨⟨⟨⟨⟨⟨⟨⟨h0, h1⟩, h2⟩, h3⟩, h4⟩, h5⟩, htrim⟩, hws⟩, hlt⟩, hgt⟩, herr⟩ := hc
  simp only [stepExternal, hlt, hgt, herr, hprev, hcap, contains2Gt, if_pos]

/-- Claim C1: the spec's error policy says no parse, spawn, redirection
or job-control error terminates the shell.  The code violates it twice:
the line `cat<nofile` whose redirection target cannot be opened runs
`File::open(file).unwrap()` (main.rs line 219) on an `Err` and panics,
killing the process; and when `bg` has a stopped job and `setsid` fails,
`main` `return`s (main.rs line 169), terminating the shell. -/
theorem claim1_fatal_error_paths :
    (processLine { oracleAllOk (fun _ => some 5) with openOk := fun _ => false }
        ⟨none, []⟩ "cat<nofile".data).1 = .panicked ∧
    (processLine { oracleAllOk (fun _ => none) with setsidOk := false }
        ⟨some ⟨33, false⟩, []⟩ "bg".data).1 = .exited :=
  ⟨rfl, rfl⟩

/-- Claim C2: the spec says a stop notification from the foreground wait
records the job as "current stopped".  The code ignores the wait status
entirely (the `WIFSTOPPED` arm, main.rs lines 303-305, is commented
out): the wait on pid `p` returns with a stop notification and the
prompt is regained, but `current_stopped` remains `none` and the child
handle is dropped. -/
theorem claim2_stop_never_recorded (p : Nat) (bg : List Child) :
    processLine { oracleAllOk (fun _ => some p) with waitStopped := fun _ => true }
        ⟨none, bg⟩ "sleep".data =
      (.ok ⟨none, bg⟩,
       { spawned := [⟨p, [], .inherit, .inherit, .inherit⟩],
         tcsets := [42, 42], waitpids := [p], stopNotes := [p],
         setsids := 1, termiosRestores := 1 }) :=
  rfl

/-- Claim C3: the spec says only the first stage of a backgrounded
pipeline is placed into a new process group.  In the code the
`first_launched` flag is captured by value in the `move` closure given
to `pre_exec` (main.rs lines 253-261), so the parent's flag never
becomes false and **every** stage of a backgrounded pipeline calls
`setpgid(0, getpid())`, each entering its own group; a foreground
pipeline performs no `setpgid` at all. -/
theorem claim3_every_bg_stage_setpgid (p q : Nat) :
    (processLine (oracleAllOk (fun i => if i = 0 then some p else some q))
        ⟨none, []⟩ "sleep 9 | sleep 9 &".data).2.setpgids = [p, q] ∧
    (processLine (oracleAllOk (fun i => if i = 0 then some p else some q))
        ⟨none, []⟩ "sleep 9 | sleep 9".data).2.setpgids = [] :=
  ⟨rfl, rfl⟩

/-- Claim C8: the `jobs` builtin first prints every background entry as
`[index] pid` in list order (including entries about to be pruned), then
retains exactly those whose `kill(pid, 0)` probe succeeds; the line
performs no `waitpid` of any kind (the trace's `waitpids` is empty), so
no exit status is consumed. -/
theorem claim8_jobs_builtin (o : Oracle) (sh : ShellSt) :
    processLine o sh "jobs".data =
      (.ok ⟨sh.currentStopped, sh.background.filter (fun t => o.alive t.pid)⟩,
       { outs := sh.background.enum.map (fun ic => .jobLine ic.1 ic.2.pid) }) := by
  simp +decide [processLine, runStages, stepStage, Trace.app]

/-- Claim C9, counterexample: the claim asserts that *every* pipeline
with an output-redirected non-final stage panics when the next stage is
spawned.  A backgrounded such pipeline does not: after the redirected
stage is pushed onto the background list, `previous_command` is `None`,
so the next stage inherits stdin and spawns fine. -/
theorem claim9_background_redirect_no_panic :
    (processLine (oracleAllOk (fun i => if i = 0 then some 5 else some 7))
        ⟨none, []⟩ "aa>f | bb &".data).1 =
      .ok ⟨none, [⟨5, false⟩, ⟨7, false⟩]⟩ :=
  rfl

/-- Claim C9, amended: in a *foreground* pipeline whose first stage
redirects stdout to a file (so its `Child.stdout` is `None`) and whose
next stage is an external command without its own input redirection,
spawning the next stage evaluates `output.stdout.unwrap()` on `None`
(main.rs line 222) and the shell panics. -/
theorem claim9_fg_redirect_then_pipe_panics (p : Nat) (sh : ShellSt) :
    (processLine (oracleAllOk (fun _ => some p)) sh "aa>f | bb".data).1 =
      .panicked :=
  rfl

/-- Claim C5, counterexample: with a current stopped job (pid 33), `fg`
sends `SIGCONT` and blocks on it, but performs **no** terminal-ownership
transfer to the job: the `tcsetpgrp` in that branch is commented out
(main.rs line 137), and the only `tcsetpgrp` calls of the line hand the
terminal to the group `tcgetpgrp` just returned (42 here), not to 33. -/
theorem claim5_stopped_fg_no_terminal_transfer :
    33 ∉ (processLine (oracleAllOk (fun _ => none))
            ⟨some ⟨33, false⟩, []⟩ "fg".data).2.tcsets ∧
    (processLine (oracleAllOk (fun _ => none))
        ⟨some ⟨33, false⟩, []⟩ "fg".data).2.sigconts = [33] := by
  constructor
  · decide
  · rfl

/-- Claim C5, amended: `fg` with a current stopped job sends it
`SIGCONT`, clears the stopped slot and blocks on it as foreground, but
transfers no terminal ownership to it (the trace's only `tcsetpgrp`
targets are the two read-back foreground groups of the wait epilogue);
`fg` with no stopped job but a non-empty background list pops the most
recently backgrounded job, transfers the terminal to its pid, sends
`SIGCONT`, and blocks on it as foreground. -/
theorem claim5_fg_amended :
    (∀ (c : Child) (bg : List Child) (o : Oracle),
      processLine o ⟨some c, bg⟩ "fg".data =
        (.ok ⟨none, bg⟩,
         { sigconts := [c.pid], tcsets := [o.fgPgrp, o.fgPgrpAfter],
           waitpids := [c.pid],
           stopNotes := if o.waitStopped c.pid then [c.pid] else [],
           setsids := 1, termiosRestores := 1 })) ∧
    (∀ (c : Child) (l : List Child) (o : Oracle),
      processLine o ⟨none, l ++ [c]⟩ "fg".data =
        (.ok ⟨none, l⟩,
         { sigconts := [c.pid], tcsets := [c.pid, o.fgPgrp, o.fgPgrpAfter],
           waitpids := [c.pid],
           stopNotes := if o.waitStopped c.pid then [c.pid] else [],
           setsids := 1, termiosRestores := 1 })) := by
  constructor
  · intro c bg o
    rfl
  · intro c l o
    simp +decide [processLine, runStages, stepStage, Trace.app]

/-- Spawn outcomes for a three-stage line whose middle spawn fails. -/
def spawnFailMid (p q : Nat) : Nat → Option Nat :=
  fun i => if i = 0 then some p else if i = 1 then none else some q

/-- Spawn outcomes for a two-stage line, both succeeding. -/
def spawnTwo (p q : Nat) : Nat → Option Nat :=
  fun i => if i = 0 then some p else some q

/-- Claim C4, counterexample: the claim says stages textually after a
failed stage that would have piped from it are *not spawned*.  In the
code a spawn failure only clears `previous_command` (main.rs lines
276-279) and the loop goes on: on `aa | bb` with `aa` failing to spawn,
`bb` is spawned anyway, with stdin inherited from the shell. -/
theorem claim4_later_stage_still_spawned :
    (processLine (oracleAllOk (fun i => if i = 0 then none else some 7))
        ⟨none, []⟩ "aa | bb".data).2.spawned =
      [⟨7, [], .inherit, .inherit, .inherit⟩] ∧
    (processLine (oracleAllOk (fun i => if i = 0 then none else some 7))
        ⟨none, []⟩ "aa | bb".data).2.errs = [.spawnFailed "aa".data] :=
  ⟨rfl, rfl⟩

/-- Claim C4, amended: when the spawn of a stage fails, the failure is
reported to the error stream and stages spawned before it continue
running (the shell sends them no signal and does not wait on them), but
stages textually after the failed one are *still spawned* — with stdin
inherited from the shell instead of piped from the failed stage — and
the foreground wait targets the final stage only. -/
theorem claim4_spawn_failure_amended (raw c1 c2 c3 : Str) (p q : Nat) (sh : ShellSt)
    (hbg : endsWithAmp (trimL raw) = false)
    (hstages : splitOnL pipeSep (trimL (trimEndAmpL (trimEndL raw))) = [c1, c2, c3])
    (h1 : plainWord c1 = true) (h2 : plainWord c2 = true) (h3 : plainWord c3 = true)
    (hpq : p ≠ q) :
    processLine (oracleAllOk (spawnFailMid p q)) sh raw =
      (.ok ⟨sh.currentStopped, sh.background⟩,
       { errs := [.spawnFailed c2],
         spawned := [⟨p, [], .inherit, .piped, .inherit⟩,
                     ⟨q, [], .inherit, .inherit, .inherit⟩],
         tcsets := [42, 42], waitpids := [q],
         setsids := 1, termiosRestores := 1 }) ∧
    p ∉ (processLine (oracleAllOk (spawnFailMid p q)) sh raw).2.waitpids := by
  have s1 : stepStage (oracleAllOk (spawnFailMid p q)) 0
      ⟨sh.currentStopped, sh.background, true, none, true⟩ c1 true =
      (.cont ⟨sh.currentStopped, sh.background, true, some ⟨p, true⟩, true⟩ 1,
       { spawned := [⟨p, [], .inherit, .piped, .inherit⟩] }) := by
    rw [stepStage_plainWord _ _ _ _ _ h1, stepExternal_plainWord _ _ _ _ _ h1 rfl]
    rfl
  have s2 : stepStage (oracleAllOk (spawnFailMid p q)) 1
      ⟨sh.currentStopped, sh.background, true, some ⟨p, true⟩, true⟩ c2 true =
      (.cont ⟨sh.currentStopped, sh.background, true, none, true⟩ 2,
       { errs := [.spawnFailed c2] }) := by
    rw [stepStage_plainWord _ _ _ _ _ h2,
        stepExternal_plainWord_pipe _ _ _ _ _ h2 ⟨p, true⟩ rfl rfl]
    rfl
  have s3 : stepStage (oracleAllOk (spawnFailMid p q)) 2
      ⟨sh.currentStopped, sh.background, true, none, true⟩ c3 false =
      (.cont ⟨sh.currentStopped, sh.background, true, some ⟨q, false⟩, true⟩ 3,
       { spawned := [⟨q, [], .inherit, .inherit, .inherit⟩] }) := by
    rw [stepStage_plainWord _ _ _ _ _ h3, stepExternal_plainWord _ _ _ _ _ h3 rfl]
    rfl
  have hmain : processLine (oracleAllOk (spawnFailMid p q)) sh raw =
      (.ok ⟨sh.currentStopped, sh.background⟩,
       { errs := [.spawnFailed c2],
         spawned := [⟨p, [], .inherit, .piped, .inherit⟩,
                     ⟨q, [], .inherit, .inherit, .inherit⟩],
         tcsets := [42, 42], waitpids := [q],
         setsids := 1, termiosRestores := 1 }) := by
    simp only [processLine, hstages, hbg, Bool.not_false, runStages, List.isEmpty_cons,
      Bool.not_true, List.isEmpty_nil, s1, s2, s3, Trace.app_empty]
    simp [Trace.app, oracleAllOk]
  exact ⟨hmain, by rw [hmain]; simp [hpq]⟩

/-- Claim C6: a line whose trimmed text ends in `&` has the background
flag set and the `&` stripped; the job spawned from it joins its own
process group, is pushed onto the background list, and the shell
performs no blocking wait.  A line not ending in `&` runs foreground:
the job is not put on the background list and the shell blocks on it
with `waitpid(pid, WUNTRACED)` (returning on exit or stop). -/
theorem claim6_trailing_amp (raw c : Str) (p : Nat) (sh : ShellSt)
    (hstages : splitOnL pipeSep (trimL (trimEndAmpL (trimEndL raw))) = [c])
    (hc : plainWord c = true) :
    (endsWithAmp (trimL raw) = true →
      processLine (oracleAllOk (fun _ => some p)) sh raw =
        (.ok ⟨sh.currentStopped, sh.background ++ [⟨p, false⟩]⟩,
         { setpgids := [p], spawned := [⟨p, [], .inherit, .inherit, .inherit⟩] })) ∧
    (endsWithAmp (trimL raw) = false →
      processLine (oracleAllOk (fun _ => some p)) sh raw =
        (.ok ⟨sh.currentStopped, sh.background⟩,
         { spawned := [⟨p, [], .inherit, .inherit, .inherit⟩],
           tcsets := [42, 42], waitpids := [p],
           setsids := 1, termiosRestores := 1 })) := by
  constructor
  · intro hbg
    have s1 : stepStage (oracleAllOk (fun _ => some p)) 0
        ⟨sh.currentStopped, sh.background, false, none, true⟩ c false =
        (.cont ⟨sh.currentStopped, sh.background ++ [⟨p, false⟩], false, none, true⟩ 1,
         { setpgids := [p], spawned := [⟨p, [], .inherit, .inherit, .inherit⟩] }) := by
      rw [stepStage_plainWord _ _ _ _ _ hc, stepExternal_plainWord _ _ _ _ _ hc rfl]
      rfl
    simp only [processLine, hstages, hbg, Bool.not_true, runStages, List.isEmpty_nil,
      s1, Trace.app_empty]
  · intro hbg
    have s1 : stepStage (oracleAllOk (fun _ => some p)) 0
        ⟨sh.currentStopped, sh.background, true, none, true⟩ c false =
        (.cont ⟨sh.currentStopped, sh.background, true, some ⟨p, false⟩, true⟩ 1,
         { spawned := [⟨p, [], .inherit, .inherit, .inherit⟩] }) := by
      rw [stepStage_plainWord _ _ _ _ _ hc, stepExternal_plainWord _ _ _ _ _ hc rfl]
      rfl
    simp only [processLine, hstages, hbg, Bool.not_false, Bool.not_true, runStages,
      List.isEmpty_nil, s1, Trace.app_empty]
    simp [Trace.app, oracleAllOk]

/-- Claim C10: in a foreground two-stage pipeline the shell's blocking
wait targets only the final stage's pid; the first stage is neither
waited on nor placed on the background list (which is all the monitor
ever scans), so its exit status is never collected by the shell. -/
theorem claim10_fg_pipeline_waits_final_only (raw c1 c2 : Str) (p q : Nat) (sh : ShellSt)
    (hbg : endsWithAmp (trimL raw) = false)
    (hstages : splitOnL pipeSep (trimL (trimEndAmpL (trimEndL raw))) = [c1, c2])
    (h1 : plainWord c1 = true) (h2 : plainWord c2 = true) (hpq : p ≠ q) :
    processLine (oracleAllOk (spawnTwo p q)) sh raw =
      (.ok ⟨sh.currentStopped, sh.background⟩,
       { spawned := [⟨p, [], .inherit, .piped, .inherit⟩,
                     ⟨q, [], .fromPipe p, .inherit, .inherit⟩],
         tcsets := [42, 42], waitpids := [q],
         setsids := 1, termiosRestores := 1 }) ∧
    p ∉ (processLine (oracleAllOk (spawnTwo p q)) sh raw).2.waitpids := by
  have s1 : stepStage (oracleAllOk (spawnTwo p q)) 0
      ⟨sh.currentStopped, sh.background, true, none, true⟩ c1 true =
      (.cont ⟨sh.currentStopped, sh.background, true, some ⟨p, true⟩, true⟩ 1,
       { spawned := [⟨p, [], .inherit, .piped, .inherit⟩] }) := by
    rw [stepStage_plainWord _ _ _ _ _ h1, stepExternal_plainWord _ _ _ _ _ h1 rfl]
    rfl
  have s2 : stepStage (oracleAllOk (spawnTwo p q)) 1
      ⟨sh.currentStopped, sh.background, true, some ⟨p, true⟩, true⟩ c2 false =
      (.cont ⟨sh.currentStopped, sh.background, true, some ⟨q, false⟩, true⟩ 2,
       { spawned := [⟨q, [], .fromPipe p, .inherit, .inherit⟩] }) := by
    rw [stepStage_plainWord _ _ _ _ _ h2,
        stepExternal_plainWord_pipe _ _ _ _ _ h2 ⟨p, true⟩ rfl rfl]
    rfl
  have hmain : processLine (oracleAllOk (spawnTwo p q)) sh raw =
      (.ok ⟨sh.currentStopped, sh.background⟩,
       { spawned := [⟨p, [], .inherit, .piped, .inherit⟩,
                     ⟨q, [], .fromPipe p, .inherit, .inherit⟩],
         tcsets := [42, 42], waitpids := [q],
         setsids := 1, termiosRestores := 1 }) := by
    simp only [processLine, hstages, hbg, Bool.not_false, runStages, List.isEmpty_cons,
      Bool.not_true, List.isEmpty_nil, s1, s2, Trace.app_empty]
    simp [Trace.app, oracleAllOk]
  exact ⟨hmain, by rw [hmain]; simp [hpq]⟩

/-- The entries one monitor sweep keeps are exactly those whose probe
did not report a collected zombie, in order. -/
theorem monitorSweep_kept (probe : Nat → ProbeRes) (ts : List Child) :
    (monitorSweep probe ts).1 =
      ts.filter (fun u => !(probe u.pid == ProbeRes.exitedZombie)) := by
  induction ts with
  | nil => rfl
  | cons t rest ih =>
    simp only [monitorSweep]
    cases h : probe t.pid <;> simp [h, ih, List.filter_cons]

/-- One monitor sweep logs exactly one probe-error message per entry
whose probe failed, in order. -/
theorem monitorSweep_errs (probe : Nat → ProbeRes) (ts : List Child) :
    (monitorSweep probe ts).2.errs =
      (ts.filter (fun u => probe u.pid == ProbeRes.probeErr)).map
        (fun u => ErrMsg.probeFailed u.pid) := by
  induction ts with
  | nil => rfl
  | cons t rest ih =>
    simp only [monitorSweep]
    cases h : probe t.pid <;> simp [h, ih, List.filter_cons, Trace.app]

/-- One monitor sweep reports exactly one exit message per entry whose
probe collected a zombie, in order. -/
theorem monitorSweep_outs (probe : Nat → ProbeRes) (ts : List Child) :
    (monitorSweep probe ts).2.outs =
      (ts.filter (fun u => probe u.pid == ProbeRes.exitedZombie)).map
        (fun u => OutMsg.bgExited u.pid) := by
  induction ts with
  | nil => rfl
  | cons t rest ih =>
    simp only [monitorSweep]
    cases h : probe t.pid <;> simp [h, ih, List.filter_cons, Trace.app]

/-- Claim C7: the monitor sweeps at a fixed 100 ms interval, and each
sweep probes every tracked job non-blockingly: a probe error keeps the
entry and only logs; a still-running probe keeps the entry; a collected
zombie removes the entry and reports its termination. -/
theorem claim7_monitor_sweep :
    monitorIntervalMs = 100 ∧
    ∀ (probe : Nat → ProbeRes) (ts : List Child) (t : Child), t ∈ ts →
      (probe t.pid = .probeErr →
        t ∈ (monitorSweep probe ts).1 ∧
        ErrMsg.probeFailed t.pid ∈ (monitorSweep probe ts).2.errs) ∧
      (probe t.pid = .stillRunning → t ∈ (monitorSweep probe ts).1) ∧
      (probe t.pid = .exitedZombie →
        t ∉ (monitorSweep probe ts).1 ∧
        OutMsg.bgExited t.pid ∈ (monitorSweep probe ts).2.outs) := by
  refine ⟨rfl, ?_⟩
  intro probe ts t ht
  refine ⟨fun hp => ⟨?_, ?_⟩, fun hp => ?_, fun hp => ⟨?_, ?_⟩⟩
  · rw [monitorSweep_kept]
    exact List.mem_filter.mpr ⟨ht, by simp [hp]⟩
  · rw [monitorSweep_errs]
    exact List.mem_map.mpr ⟨t, List.mem_filter.mpr ⟨ht, by simp [hp]⟩, rfl⟩
  · rw [monitorSweep_kept]
    exact List.mem_filter.mpr ⟨ht, by simp [hp]⟩
  · rw [monitorSweep_kept]
    intro hmem
    have hkeep := (List.mem_filter.mp hmem).2
    simp [hp] at hkeep
  · rw [monitorSweep_outs]
    exact List.mem_map.mpr ⟨t, List.mem_filter.mpr ⟨ht, by simp [hp]⟩, rfl⟩

/-- Witness for the amended C4 claim at the line `aa | bb | cc` with the
middle spawn failing. -/
theorem claim4_spawn_failure_amended_witness :
    processLine (oracleAllOk (spawnFailMid 3 4)) ⟨none, []⟩ "aa | bb | cc".data =
      (.ok ⟨none, []⟩,
       { errs := [.spawnFailed "bb".data],
         spawned := [⟨3, [], .inherit, .piped, .inherit⟩,
                     ⟨4, [], .inherit, .inherit, .inherit⟩],
         tcsets := [42, 42], waitpids := [4],
         setsids := 1, termiosRestores := 1 }) ∧
    3 ∉ (processLine (oracleAllOk (spawnFailMid 3 4))
          ⟨none, []⟩ "aa | bb | cc".data).2.waitpids :=
  claim4_spawn_failure_amended "aa | bb | cc".data "aa".data "bb".data "cc".data
    3 4 ⟨none, []⟩ rfl rfl rfl rfl rfl (by decide)

/-- Witness for C6 at the lines `zzz &` and `zzz`. -/
theorem claim6_trailing_amp_witness :
    processLine (oracleAllOk (fun _ => some 5)) ⟨none, []⟩ "zzz &".data =
      (.ok ⟨none, [⟨5, false⟩]⟩,
       { setpgids := [5], spawned := [⟨5, [], .inherit, .inherit, .inherit⟩] }) ∧
    processLine (oracleAllOk (fun _ => some 5)) ⟨none, []⟩ "zzz".data =
      (.ok ⟨none, []⟩,
       { spawned := [⟨5, [], .inherit, .inherit, .inherit⟩],
         tcsets := [42, 42], waitpids := [5],
         setsids := 1, termiosRestores := 1 }) :=
  ⟨(claim6_trailing_amp "zzz &".data "zzz".data 5 ⟨none, []⟩ rfl rfl).1 rfl,
   (claim6_trailing_amp "zzz".data "zzz".data 5 ⟨none, []⟩ rfl rfl).2 rfl⟩

/-- Witness for C10 at the line `aa | bb`. -/
theorem claim10_fg_pipeline_witness :
    processLine (oracleAllOk (spawnTwo 3 4)) ⟨none, []⟩ "aa | bb".data =
      (.ok ⟨none, []⟩,
       { spawned := [⟨3, [], .inherit, .piped, .inherit⟩,
                     ⟨4, [], .fromPipe 3, .inherit, .inherit⟩],
         tcsets := [42, 42], waitpids := [4],
         setsids := 1, termiosRestores := 1 }) ∧
    3 ∉ (processLine (oracleAllOk (spawnTwo 3 4))
          ⟨none, []⟩ "aa | bb".data).2.waitpids :=
  claim10_fg_pipeline_waits_final_only "aa | bb".data "aa".data "bb".data
    3 4 ⟨none, []⟩ rfl rfl rfl rfl (by decide)

/-- A probe assigning a different result to each of the pids 1, 2, 3. -/
def probeCase : Nat → ProbeRes :=
  fun n => if n = 1 then .probeErr else if n = 2 then .stillRunning else .exitedZombie

/-- Witness for C7 at a three-entry background list exercising all three
probe outcomes. -/
theorem claim7_monitor_sweep_witness :
    ((⟨1, false⟩ : Child) ∈
        (monitorSweep probeCase [⟨1, false⟩, ⟨2, false⟩, ⟨3, false⟩]).1 ∧
      ErrMsg.probeFailed 1 ∈
        (monitorSweep probeCase [⟨1, false⟩, ⟨2, false⟩, ⟨3, false⟩]).2.errs) ∧
    (⟨2, false⟩ : Child) ∈
      (monitorSweep probeCase [⟨1, false⟩, ⟨2, false⟩, ⟨3, false⟩]).1 ∧
    ((⟨3, false⟩ : Child) ∉
        (monitorSweep probeCase [⟨1, false⟩, ⟨2, false⟩, ⟨3, false⟩]).1 ∧
      OutMsg.bgExited 3 ∈
        (monitorSweep probeCase [⟨1, false⟩, ⟨2, false⟩, ⟨3, false⟩]).2.outs) :=
  ⟨(claim7_monitor_sweep.2 probeCase _ ⟨1, false⟩ (by decide)).1 rfl,
   ((claim7_monitor_sweep.2 probeCase _ ⟨2, false⟩ (by decide)).2).1 rfl,
   ((claim7_monitor_sweep.2 probeCase _ ⟨3, false⟩ (by decide)).2).2 rfl⟩

end Ish
